import Mathlib

/-
Shallow embedding of the analytics module of the repository
(the AnalyticsEvent / AnalyticsStats data model and the
getAnalyticsStats aggregation), together with theorems settling the
specification claims about it.

Modelling conventions:
* The untyped JavaScript meta bag is a list of string-keyed JSValue
  entries (string, number, boolean, null); an absent field is
  Option.none, matching the undefined result of optional chaining.
* JavaScript Map insertion order is modelled by an association list
  that keeps first-discovery order (countList / bump below).
* Array.prototype.sort with a comparator is a stable sort; the result
  of a stable sort is uniquely determined by the comparator and the
  input order, so it is embedded as List.insertionSort of the
  corresponding total preorder.
* String.prototype.localeCompare on the formatted hour strings, and
  the gte / lte timestamp comparisons of the store query, are
  code-unit lexicographic comparisons, embedded as lexLe / strLe over
  the character lists of the strings.
* Date parsing (new Date(ts).getHours(), which depends on the machine
  local timezone) is an external runtime facility; the aggregation is
  parameterised by a function getHours from timestamp strings to the
  local hour, exactly as the computing process supplies it.
* The asynchronous store fetch is a value of type
  Except String (List AnalyticsEvent): an error value models the query
  yielding an error or throwing, and an ok value carries the rows in
  the delivery order of the store.
-/

/-- JSValue is a JavaScript runtime value as it can occur inside the
untyped meta payload of an event: a string, a number, a boolean, or
null. -/
inductive JSValue : Type
  | str (s : String)
  | num (n : Int)
  | bool (b : Bool)
  | null
deriving DecidableEq

/-- jsTruthy v is JavaScript truthiness of v: the empty string, the
number 0, false and null are falsy; everything else is truthy. -/
def jsTruthy : JSValue → Bool
  | .str s => s != ""
  | .num n => n != 0
  | .bool b => b
  | .null => false

/-- optTruthy v is JavaScript truthiness of an optional value:
undefined (none) is falsy, otherwise the truthiness of the value. -/
def optTruthy : Option JSValue → Bool
  | none => false
  | some v => jsTruthy v

/-- strTruthy s is JavaScript truthiness of a string-or-null field:
null (none) and the empty string are falsy. -/
def strTruthy : Option String → Bool
  | none => false
  | some s => s != ""

/-- metaGet m k is the optional-chaining lookup m?.k on the untyped
meta bag: undefined when the bag is null or the key is absent. -/
def metaGet (m : Option (List (String × JSValue))) (k : String) : Option JSValue :=
  m.bind (fun l => List.lookup k l)

/-- AnalyticsEvent is the row shape of the app_analytics table as
declared by the AnalyticsEvent interface of the source: id, nullable
user_id and device_id, event_type, nullable path, nullable untyped
meta, and a timestamp string. -/
structure AnalyticsEvent where
  id : String
  user_id : Option String
  device_id : Option String
  event_type : String
  path : Option String
  meta : Option (List (String × JSValue))
  timestamp : String
deriving DecidableEq

/-- AnalyticsStats is the result shape of getAnalyticsStats: two
totals and six lists, each list entry a key paired with its count. -/
structure AnalyticsStats where
  totalPageViews : Nat
  totalSearches : Nat
  pageViews : List (String × Nat)
  topSearchedCodes : List (JSValue × Nat)
  topBrands : List (JSValue × Nat)
  topUsers : List (String × Nat)
  errorCodeFrequency : List (JSValue × Nat)
  activityByHour : List (String × Nat)
deriving DecidableEq

/-- bump k l is map.set(k, (map.get(k) or 0) + 1) on an
insertion-ordered association list: increment the existing entry in
place, or append a fresh entry with count 1. -/
def bump {K : Type} [DecidableEq K] (k : K) : List (K × Nat) → List (K × Nat)
  | [] => [(k, 1)]
  | p :: rest => if p.1 = k then (p.1, p.2 + 1) :: rest else p :: bump k rest

/-- countList keys is the JavaScript Map produced by iterating over
keys and incrementing a counter per key, read out in insertion order
(Array.from(map.entries())). -/
def countList {K : Type} [DecidableEq K] (keys : List K) : List (K × Nat) :=
  keys.foldl (fun acc k => bump k acc) []

/-- countGe a b holds when the count of a is at least the count of b;
this is the total preorder of the comparator (a, b) => b.count -
a.count used by the five count-ranked lists. -/
def countGe {K : Type} (a b : K × Nat) : Prop := b.2 ≤ a.2

instance countGe_decidable {K : Type} : DecidableRel (@countGe K) :=
  fun a b => Nat.decLe b.2 a.2

instance countGe_total {K : Type} : IsTotal (K × Nat) countGe :=
  ⟨fun a b => Nat.le_total b.2 a.2⟩

instance countGe_trans {K : Type} : IsTrans (K × Nat) countGe :=
  ⟨fun _ _ _ h1 h2 => Nat.le_trans h2 h1⟩

/-- sortByCountDesc l is the stable descending-by-count sort
.sort((a, b) => b.count - a.count) applied by the five count-ranked
lists. -/
def sortByCountDesc {K : Type} [DecidableEq K] (l : List (K × Nat)) : List (K × Nat) :=
  l.insertionSort countGe

/-- lexLe as bs is code-unit lexicographic less-or-equal on character
lists: on equal heads recurse, otherwise compare the code units. -/
def lexLe : List Char → List Char → Bool
  | [], _ => true
  | _ :: _, [] => false
  | a :: as, b :: bs =>
    if a.toNat = b.toNat then lexLe as bs else decide (a.toNat < b.toNat)

/-- strLe a b is code-unit lexicographic less-or-equal on strings,
the order underlying a.localeCompare(b) on the plain ASCII strings the
aggregation compares, and the order of the gte / lte timestamp
comparisons of the store query. -/
def strLe (a b : String) : Bool := lexLe a.data b.data

/-- hourLe a b compares two activityByHour entries by their formatted
hour strings, the comparator (a, b) => a.hour.localeCompare(b.hour). -/
def hourLe (a b : String × Nat) : Prop := strLe a.1 b.1 = true

instance hourLe_decidable : DecidableRel hourLe :=
  fun a b => instDecidableEqBool (strLe a.1 b.1) true

/-- pageViewKeys events is the sequence of keys inserted into the
page-view map: the path of each event whose path is truthy, in event
order. -/
def pageViewKeys (events : List AnalyticsEvent) : List String :=
  events.filterMap (fun e => if strTruthy e.path then e.path else none)

/-- searchKeys events is the sequence of keys inserted into the search
map: the meta code value of each event whose event_type is the literal
string search and whose meta code is truthy, in event order. -/
def searchKeys (events : List AnalyticsEvent) : List JSValue :=
  events.filterMap (fun e =>
    if e.event_type == "search" && optTruthy (metaGet e.meta "code")
    then metaGet e.meta "code" else none)

/-- brandKeys events is the sequence of keys inserted into the brand
map: the meta brand value of each event whose meta brand is truthy,
regardless of event_type, in event order. -/
def brandKeys (events : List AnalyticsEvent) : List JSValue :=
  events.filterMap (fun e =>
    if optTruthy (metaGet e.meta "brand") then metaGet e.meta "brand" else none)

/-- userKeys events is the sequence of keys inserted into the user
map: the user_id of each event whose user_id is truthy, in event
order. -/
def userKeys (events : List AnalyticsEvent) : List String :=
  events.filterMap (fun e => if strTruthy e.user_id then e.user_id else none)

/-- errorKeys events is the sequence of keys inserted into the error
map: the meta errorCode value of each event whose meta errorCode is
truthy, in event order. -/
def errorKeys (events : List AnalyticsEvent) : List JSValue :=
  events.filterMap (fun e =>
    if optTruthy (metaGet e.meta "errorCode") then metaGet e.meta "errorCode" else none)

/-- hourKeys getHours events is the sequence of keys inserted into the
hour map: every event contributes the string of its local hour
followed by a colon and two zeros, with no zero padding. -/
def hourKeys (getHours : String → Nat) (events : List AnalyticsEvent) : List String :=
  events.map (fun e => Nat.repr (getHours e.timestamp) ++ ":00")

/-- pageViewsFull events is the page-view count list sorted stably by
count descending, before truncation. -/
def pageViewsFull (events : List AnalyticsEvent) : List (String × Nat) :=
  sortByCountDesc (countList (pageViewKeys events))

/-- pageViewsOf events is the pageViews field: the sorted page-view
counts truncated to the top 10 by slice(0, 10). -/
def pageViewsOf (events : List AnalyticsEvent) : List (String × Nat) :=
  (pageViewsFull events).take 10

/-- topSearchedCodesFull events is the searched-code count list sorted
stably by count descending, before truncation. -/
def topSearchedCodesFull (events : List AnalyticsEvent) : List (JSValue × Nat) :=
  sortByCountDesc (countList (searchKeys events))

/-- topSearchedCodesOf events is the topSearchedCodes field: the
sorted searched-code counts truncated to the top 10. -/
def topSearchedCodesOf (events : List AnalyticsEvent) : List (JSValue × Nat) :=
  (topSearchedCodesFull events).take 10

/-- topBrandsFull events is the brand count list sorted stably by
count descending, before truncation. -/
def topBrandsFull (events : List AnalyticsEvent) : List (JSValue × Nat) :=
  sortByCountDesc (countList (brandKeys events))

/-- topBrandsOf events is the topBrands field: the sorted brand counts
truncated to the top 10. -/
def topBrandsOf (events : List AnalyticsEvent) : List (JSValue × Nat) :=
  (topBrandsFull events).take 10

/-- topUsersFull events is the user count list sorted stably by count
descending, before truncation. -/
def topUsersFull (events : List AnalyticsEvent) : List (String × Nat) :=
  sortByCountDesc (countList (userKeys events))

/-- topUsersOf events is the topUsers field: the sorted user counts
truncated to the top 10. -/
def topUsersOf (events : List AnalyticsEvent) : List (String × Nat) :=
  (topUsersFull events).take 10

/-- errorCodeFrequencyFull events is the error-code count list sorted
stably by count descending, before truncation. -/
def errorCodeFrequencyFull (events : List AnalyticsEvent) : List (JSValue × Nat) :=
  sortByCountDesc (countList (errorKeys events))

/-- errorCodeFrequencyOf events is the errorCodeFrequency field: the
sorted error-code counts truncated to the top 15 by slice(0, 15). -/
def errorCodeFrequencyOf (events : List AnalyticsEvent) : List (JSValue × Nat) :=
  (errorCodeFrequencyFull events).take 15

/-- activityByHourOf getHours events is the activityByHour field: the
hour count list sorted stably by the localeCompare order of the
formatted hour strings, with no truncation. -/
def activityByHourOf (getHours : String → Nat) (events : List AnalyticsEvent) :
    List (String × Nat) :=
  List.insertionSort hourLe (countList (hourKeys getHours events))

/-- sumCounts l is reduce((sum, c) => sum + c.count, 0) over a count
list. -/
def sumCounts {K : Type} (l : List (K × Nat)) : Nat :=
  l.foldl (fun s p => s + p.2) 0

/-- getAnalyticsStatsCompute getHours events is the aggregation body
of getAnalyticsStats applied to the fetched events: the two totals and
the six lists exactly as the source assembles them, with totalSearches
summing the already truncated topSearchedCodes list. -/
def getAnalyticsStatsCompute (getHours : String → Nat) (events : List AnalyticsEvent) :
    AnalyticsStats :=
  { totalPageViews := events.length
    totalSearches := sumCounts (topSearchedCodesOf events)
    pageViews := pageViewsOf events
    topSearchedCodes := topSearchedCodesOf events
    topBrands := topBrandsOf events
    topUsers := topUsersOf events
    errorCodeFrequency := errorCodeFrequencyOf events
    activityByHour := activityByHourOf getHours events }

/-- StatsFilters is the optional filters argument of
getAnalyticsStats: optional startDate, endDate and eventType. -/
structure StatsFilters where
  startDate : Option String
  endDate : Option String
  eventType : Option String
deriving DecidableEq

/-- applyStartFilter sd rows keeps the rows whose timestamp is gte the
start date, applied only when the start date is supplied and truthy,
exactly as the query is built. -/
def applyStartFilter (sd : Option String) (rows : List AnalyticsEvent) :
    List AnalyticsEvent :=
  match sd with
  | some s => if s != "" then rows.filter (fun e => strLe s e.timestamp) else rows
  | none => rows

/-- applyEndFilter ed rows keeps the rows whose timestamp is lte the
end date, applied only when the end date is supplied and truthy. -/
def applyEndFilter (ed : Option String) (rows : List AnalyticsEvent) :
    List AnalyticsEvent :=
  match ed with
  | some s => if s != "" then rows.filter (fun e => strLe e.timestamp s) else rows
  | none => rows

/-- applyFilters filters rows is the condition set the source attaches
to the store query: a gte condition for a supplied startDate and an
lte condition for a supplied endDate. The eventType field of the
filters is read by no branch of the query construction. -/
def applyFilters (filters : StatsFilters) (rows : List AnalyticsEvent) :
    List AnalyticsEvent :=
  applyEndFilter filters.endDate (applyStartFilter filters.startDate rows)

/-- emptyStats is the literal zeroed AnalyticsStats returned by the
catch branch of getAnalyticsStats. -/
def emptyStats : AnalyticsStats :=
  { totalPageViews := 0
    totalSearches := 0
    pageViews := []
    topSearchedCodes := []
    topBrands := []
    topUsers := []
    errorCodeFrequency := []
    activityByHour := [] }

/-- getAnalyticsStats getHours filters store is the whole fetch-
and-aggregate pipeline: when the store fetch yields an error the catch
branch returns the zeroed stats literal, otherwise the filtered rows
are aggregated. The function is total, so no exception reaches the
caller. -/
def getAnalyticsStats (getHours : String → Nat) (filters : StatsFilters)
    (store : Except String (List AnalyticsEvent)) : AnalyticsStats :=
  match store with
  | .error _ => emptyStats
  | .ok rows => getAnalyticsStatsCompute getHours (applyFilters filters rows)

/-- hrs0 is a trivial local-hour function for concrete inputs whose
hour values are irrelevant. -/
def hrs0 : String → Nat := fun _ => 0

/-- baseEvent is a minimal concrete event from which the concrete test
inputs below are built. -/
def baseEvent : AnalyticsEvent :=
  { id := "e"
    user_id := none
    device_id := none
    event_type := "click"
    path := none
    meta := none
    timestamp := "t" }

/-- pageViewEvent p is a page-view event with path p. -/
def pageViewEvent (p : String) : AnalyticsEvent :=
  { baseEvent with id := p, event_type := "page_view", path := some p }

/-- searchEvent c is a search event whose meta carries the code c. -/
def searchEvent (c : String) : AnalyticsEvent :=
  { baseEvent with
      id := c
      event_type := "search"
      meta := some [("code", JSValue.str c)] }

/-- elevenSearches is the spec example input of eleven search events
with eleven distinct codes. -/
def elevenSearches : List AnalyticsEvent :=
  ["c01", "c02", "c03", "c04", "c05", "c06", "c07", "c08", "c09", "c10",
    "c11"].map searchEvent

/-- userEvent u is an event attributed to the user u. -/
def userEvent (u : String) : AnalyticsEvent :=
  { baseEvent with user_id := some u }

/-- hrs3 sends timestamp A to local hour 9, B to 10 and anything else
to 2, the hours of the spec examples. -/
def hrs3 : String → Nat :=
  fun t => if t = "A" then 9 else if t = "B" then 10 else 2

/-- hourEvents is three events whose local hours under hrs3 are 9, 10
and 2 in discovery order. -/
def hourEvents : List AnalyticsEvent :=
  [{ baseEvent with timestamp := "A" }, { baseEvent with timestamp := "B" },
    { baseEvent with timestamp := "C" }]

/-- hourPairEvents is two events whose local hours under hrs3 are 9
and 10 in discovery order, an equal-count pair of hour buckets. -/
def hourPairEvents : List AnalyticsEvent :=
  [{ baseEvent with timestamp := "A" }, { baseEvent with timestamp := "B" }]

/-- hrs2 sends timestamp Y to local hour 10 and anything else to 2. -/
def hrs2 : String → Nat := fun t => if t = "Y" then 10 else 2

/-- hourEventsC7 is three events whose local hours under hrs2 are 2, 2
and 10 in discovery order. -/
def hourEventsC7 : List AnalyticsEvent :=
  [{ baseEvent with timestamp := "X1" }, { baseEvent with timestamp := "X2" },
    { baseEvent with timestamp := "Y" }]

/-- tieEvents is two page views on distinct paths, a tie at count
one. -/
def tieEvents : List AnalyticsEvent :=
  [pageViewEvent "/a", pageViewEvent "/b"]

/-- nullUserEvents is the spec example input for topUsers: user u1
five times, user u2 five times, then one hundred anonymous events. -/
def nullUserEvents : List AnalyticsEvent :=
  List.replicate 5 (userEvent "u1") ++ List.replicate 5 (userEvent "u2") ++
    List.replicate 100 baseEvent

/-- lexLe is total: one direction always holds. -/
theorem lexLe_total : ∀ as bs, lexLe as bs = true ∨ lexLe bs as = true
  | [], _ => Or.inl rfl
  | _ :: _, [] => Or.inr rfl
  | a :: as, b :: bs => by
    simp only [lexLe]
    by_cases h : a.toNat = b.toNat
    · rw [if_pos h, if_pos h.symm]
      exact lexLe_total as bs
    · have h2 : ¬ b.toNat = a.toNat := fun e => h e.symm
      rw [if_neg h, if_neg h2]
      simp only [decide_eq_true_eq]
      omega

/-- lexLe is transitive. -/
theorem lexLe_trans : ∀ as bs cs, lexLe as bs = true → lexLe bs cs = true →
    lexLe as cs = true
  | [], _, _, _, _ => rfl
  | _ :: _, [], _, h1, _ => by simp [lexLe] at h1
  | _ :: _, _ :: _, [], _, h2 => by simp [lexLe] at h2
  | a :: as, b :: bs, c :: cs, h1, h2 => by
    simp only [lexLe] at h1 h2 ⊢
    by_cases hab : a.toNat = b.toNat <;> by_cases hbc : b.toNat = c.toNat
    · rw [if_pos hab] at h1
      rw [if_pos hbc] at h2
      rw [if_pos (hab.trans hbc)]
      exact lexLe_trans as bs cs h1 h2
    · rw [if_pos hab] at h1
      rw [if_neg hbc] at h2
      have hlt : b.toNat < c.toNat := of_decide_eq_true h2
      rw [if_neg (by omega)]
      exact decide_eq_true (by omega)
    · rw [if_neg hab] at h1
      rw [if_pos hbc] at h2
      have hlt : a.toNat < b.toNat := of_decide_eq_true h1
      rw [if_neg (by omega)]
      exact decide_eq_true (by omega)
    · rw [if_neg hab] at h1
      rw [if_neg hbc] at h2
      have hlt1 : a.toNat < b.toNat := of_decide_eq_true h1
      have hlt2 : b.toNat < c.toNat := of_decide_eq_true h2
      rw [if_neg (by omega)]
      exact decide_eq_true (by omega)

instance hourLe_total : IsTotal (String × Nat) hourLe :=
  ⟨fun a b => lexLe_total a.1.data b.1.data⟩

instance hourLe_trans : IsTrans (String × Nat) hourLe :=
  ⟨fun a b c => lexLe_trans a.1.data b.1.data c.1.data⟩

/-- Counts stay positive across a bump. -/
theorem mem_bump_pos {K : Type} [DecidableEq K] (k : K) :
    ∀ (l : List (K × Nat)), (∀ p ∈ l, 0 < p.2) → ∀ p ∈ bump k l, 0 < p.2
  | [], _, p, hp => by
    simp only [bump, List.mem_singleton] at hp
    simp [hp]
  | q :: rest, h, p, hp => by
    simp only [bump] at hp
    by_cases hq : q.1 = k
    · rw [if_pos hq] at hp
      rcases List.mem_cons.mp hp with h1 | h1
      · subst h1
        exact Nat.succ_pos q.2
      · exact h p (List.mem_cons_of_mem q h1)
    · rw [if_neg hq] at hp
      rcases List.mem_cons.mp hp with h1 | h1
      · subst h1
        exact h p (List.mem_cons_self p rest)
      · exact mem_bump_pos k rest (fun r hr => h r (List.mem_cons_of_mem q hr)) p h1

/-- Keys after a bump: unchanged when the key is present, appended at
the end when it is new. -/
theorem bump_keys {K : Type} [DecidableEq K] (k : K) :
    ∀ l : List (K × Nat), (bump k l).map Prod.fst =
      if k ∈ l.map Prod.fst then l.map Prod.fst else l.map Prod.fst ++ [k]
  | [] => by simp [bump]
  | q :: rest => by
    simp only [bump]
    by_cases hq : q.1 = k
    · rw [if_pos hq]
      simp [hq]
    · have hq2 : ¬ k = q.1 := fun e => hq e.symm
      rw [if_neg hq]
      simp only [List.map_cons]
      rw [bump_keys k rest]
      by_cases hk : k ∈ rest.map Prod.fst
      · rw [if_pos hk, if_pos (by simp [hk])]
      · rw [if_neg hk, if_neg (by simp [hq2, hk]), List.cons_append]

/-- Membership among keys after a bump. -/
theorem mem_bump_keys {K : Type} [DecidableEq K] (k x : K) (l : List (K × Nat)) :
    x ∈ (bump k l).map Prod.fst ↔ x = k ∨ x ∈ l.map Prod.fst := by
  rw [bump_keys]
  split_ifs with h
  · constructor
    · exact Or.inr
    · rintro (rfl | hx)
      · exact h
      · exact hx
  · simp [List.mem_append, or_comm]

/-- A bump keeps the key list duplicate free. -/
theorem bump_keys_nodup {K : Type} [DecidableEq K] (k : K) (l : List (K × Nat))
    (h : (l.map Prod.fst).Nodup) : ((bump k l).map Prod.fst).Nodup := by
  rw [bump_keys]
  split_ifs with hk
  · exact h
  · refine List.Nodup.append h (List.nodup_singleton k) ?_
    intro a ha hb
    rw [List.mem_singleton] at hb
    subst hb
    exact hk ha

/-- Positivity of counts is preserved by the whole counting fold. -/
theorem countFold_pos {K : Type} [DecidableEq K] :
    ∀ (ks : List K) (acc : List (K × Nat)), (∀ p ∈ acc, 0 < p.2) →
      ∀ p ∈ ks.foldl (fun a k => bump k a) acc, 0 < p.2
  | [], _, h => h
  | k :: ks, acc, h => countFold_pos ks (bump k acc) (mem_bump_pos k acc h)

/-- Every count produced by countList is positive. -/
theorem countList_pos {K : Type} [DecidableEq K] (ks : List K) :
    ∀ p ∈ countList ks, 0 < p.2 :=
  countFold_pos ks [] (by simp)

/-- Key nodup is preserved by the whole counting fold. -/
theorem countFold_keys_nodup {K : Type} [DecidableEq K] :
    ∀ (ks : List K) (acc : List (K × Nat)), (acc.map Prod.fst).Nodup →
      (((ks.foldl (fun a k => bump k a) acc)).map Prod.fst).Nodup
  | [], _, h => h
  | k :: ks, acc, h => countFold_keys_nodup ks (bump k acc) (bump_keys_nodup k acc h)

/-- countList produces pairwise distinct keys. -/
theorem countList_keys_nodup {K : Type} [DecidableEq K] (ks : List K) :
    ((countList ks).map Prod.fst).Nodup :=
  countFold_keys_nodup ks [] (by simp)

/-- countList produces pairwise distinct entries. -/
theorem countList_entries_nodup {K : Type} [DecidableEq K] (ks : List K) :
    (countList ks).Nodup :=
  (countList_keys_nodup ks).of_map Prod.fst

/-- Key membership across the whole counting fold. -/
theorem countFold_keys_mem {K : Type} [DecidableEq K] :
    ∀ (ks : List K) (acc : List (K × Nat)) (x : K),
      (x ∈ ((ks.foldl (fun a k => bump k a) acc)).map Prod.fst ↔
        x ∈ ks ∨ x ∈ acc.map Prod.fst)
  | [], acc, x => by simp
  | k :: ks, acc, x => by
    simp only [List.foldl_cons, List.mem_cons]
    rw [countFold_keys_mem ks (bump k acc) x, mem_bump_keys]
    tauto

/-- The keys of countList are exactly the input keys. -/
theorem countList_keys_mem {K : Type} [DecidableEq K] (ks : List K) (x : K) :
    x ∈ (countList ks).map Prod.fst ↔ x ∈ ks := by
  rw [countList, countFold_keys_mem]
  simp

/-- countList has one entry per distinct input key. -/
theorem countList_length {K : Type} [DecidableEq K] (ks : List K) :
    (countList ks).length = ks.toFinset.card := by
  have hnd := countList_keys_nodup ks
  have h2 : ((countList ks).map Prod.fst).toFinset = ks.toFinset := by
    ext x
    simp only [List.mem_toFinset]
    exact countList_keys_mem ks x
  calc (countList ks).length
      = ((countList ks).map Prod.fst).length := (List.length_map _ _).symm
    _ = ((countList ks).map Prod.fst).dedup.length := by rw [hnd.dedup]
    _ = ((countList ks).map Prod.fst).toFinset.card := (List.card_toFinset _).symm
    _ = ks.toFinset.card := by rw [h2]

/-- Filtering by a predicate that already gates a filterMap extractor
does not change the extraction. -/
theorem filterMap_filter_eq {α β : Type} (p : α → Bool) (f : α → Option β)
    (h : ∀ a, p a = false → f a = none) :
    ∀ l : List α, (l.filter p).filterMap f = l.filterMap f
  | [] => rfl
  | a :: l => by
    rw [List.filter_cons]
    by_cases hp : p a = true
    · rw [if_pos hp]
      simp only [List.filterMap_cons]
      rw [filterMap_filter_eq p f h l]
    · have hfa : f a = none := h a (Bool.eq_false_iff.mpr hp)
      rw [if_neg hp]
      simp only [List.filterMap_cons, hfa]
      exact filterMap_filter_eq p f h l

/-- In a duplicate-free list, a two-element sublist survives a take
that still contains the second element. -/
theorem pair_sublist_take {α : Type} {a b : α} :
    ∀ {l : List α} {n : Nat}, l.Nodup → [a, b].Sublist l → b ∈ l.take n →
      [a, b].Sublist (l.take n)
  | [], _, _, hs, _ => by cases hs
  | _ :: _, 0, _, _, hb => by simp at hb
  | x :: l, n + 1, hnd, hs, hb => by
    rw [List.take_succ_cons] at hb ⊢
    cases hs with
    | cons _ hs2 =>
      have hbl : b ∈ l := hs2.subset (by simp)
      have hbx : b ≠ x := by
        intro e
        subst e
        exact (List.nodup_cons.mp hnd).1 hbl
      have hb2 : b ∈ l.take n := by
        rcases List.mem_cons.mp hb with e | h2
        · exact absurd e hbx
        · exact h2
      exact (pair_sublist_take (List.nodup_cons.mp hnd).2 hs2 hb2).cons x
    | cons₂ _ hs2 =>
      have hbl : b ∈ l := hs2.subset (by simp)
      have hbx : b ≠ a := by
        intro e
        subst e
        exact (List.nodup_cons.mp hnd).1 hbl
      have hb2 : b ∈ l.take n := by
        rcases List.mem_cons.mp hb with e | h2
        · exact absurd e hbx
        · exact h2
      exact (List.singleton_sublist.mpr hb2).cons₂ a

/-- The stable descending sort keeps entries pairwise distinct. -/
theorem sortByCountDesc_nodup {K : Type} [DecidableEq K] (l : List (K × Nat))
    (h : l.Nodup) : (sortByCountDesc l).Nodup :=
  ((List.perm_insertionSort countGe l).nodup_iff).mpr h

/-- A pair of equal-count entries of the discovery-order count list
keeps its relative order through the stable descending sort. -/
theorem countGe_pair_sublist {K : Type} [DecidableEq K] {counts : List (K × Nat)}
    {k1 k2 : K} {c : Nat} (h : [(k1, c), (k2, c)].Sublist counts) :
    [(k1, c), (k2, c)].Sublist (sortByCountDesc counts) :=
  List.sublist_insertionSort (List.pairwise_pair.mpr (Nat.le_refl c)) h

/-- Dropping the events with a falsy path leaves the page-view keys
unchanged. -/
theorem pageViewKeys_filter (events : List AnalyticsEvent) :
    pageViewKeys (events.filter (fun e => strTruthy e.path)) = pageViewKeys events :=
  filterMap_filter_eq _ _ (fun a ha => by simp [ha]) events

/-- Dropping the events that are not truthy search events leaves the
search keys unchanged. -/
theorem searchKeys_filter (events : List AnalyticsEvent) :
    searchKeys (events.filter (fun e =>
      e.event_type == "search" && optTruthy (metaGet e.meta "code"))) =
      searchKeys events :=
  filterMap_filter_eq _ _ (fun a ha => by simp [ha]) events

/-- Dropping the events with a falsy meta brand leaves the brand keys
unchanged. -/
theorem brandKeys_filter (events : List AnalyticsEvent) :
    brandKeys (events.filter (fun e => optTruthy (metaGet e.meta "brand"))) =
      brandKeys events :=
  filterMap_filter_eq _ _ (fun a ha => by simp [ha]) events

/-- Dropping the events with a falsy user_id leaves the user keys
unchanged. -/
theorem userKeys_filter (events : List AnalyticsEvent) :
    userKeys (events.filter (fun e => strTruthy e.user_id)) = userKeys events :=
  filterMap_filter_eq _ _ (fun a ha => by simp [ha]) events

/-- Dropping the events with a falsy meta errorCode leaves the error
keys unchanged. -/
theorem errorKeys_filter (events : List AnalyticsEvent) :
    errorKeys (events.filter (fun e => optTruthy (metaGet e.meta "errorCode"))) =
      errorKeys events :=
  filterMap_filter_eq _ _ (fun a ha => by simp [ha]) events

/-- Every entry of a truncated count-ranked list has a positive
count. -/
theorem take_sortByCountDesc_pos {K : Type} [DecidableEq K] (ks : List K) (n : Nat) :
    ∀ p ∈ (sortByCountDesc (countList ks)).take n, 0 < p.2 :=
  fun p hp =>
    countList_pos ks p
      ((List.mem_insertionSort countGe).mp ((List.take_sublist n _).subset hp))

/-- Every truncated count-ranked list has non-increasing counts. -/
theorem take_sortByCountDesc_sorted {K : Type} [DecidableEq K]
    (l : List (K × Nat)) (n : Nat) :
    List.Pairwise countGe ((sortByCountDesc l).take n) :=
  List.Pairwise.sublist (List.take_sublist n _) (List.sorted_insertionSort countGe l)

/-- Every entry of the hour list has a positive count. -/
theorem activityByHour_pos (getHours : String → Nat) (events : List AnalyticsEvent) :
    ∀ p ∈ activityByHourOf getHours events, 0 < p.2 :=
  fun p hp =>
    countList_pos _ p ((List.mem_insertionSort hourLe).mp hp)

/-- C1: the claim states that a supplied eventType filter restricts
the aggregated collection to events whose eventType matches it
exactly, so an event of any other type contributes to no output
field. The query construction never reads the eventType field of the
filters: the applied conditions are identical with and without it, and
under an eventType filter of search a single page-view event is still
aggregated in full, contributing to totalPageViews and pageViews. -/
theorem C1_eventType_filter_ignored :
    (∀ (f : StatsFilters) (rows : List AnalyticsEvent),
        applyFilters f rows =
          applyFilters
            { startDate := f.startDate, endDate := f.endDate, eventType := none }
            rows)
    ∧ (getAnalyticsStats hrs0
        { startDate := none, endDate := none, eventType := some "search" }
        (Except.ok [pageViewEvent "/home"])).totalPageViews = 1
    ∧ (getAnalyticsStats hrs0
        { startDate := none, endDate := none, eventType := some "search" }
        (Except.ok [pageViewEvent "/home"])).pageViews = [("/home", 1)] :=
  ⟨fun _ _ => rfl, by decide, by decide⟩

/-- C2: totalSearches is the sum of the counts of the already
top-10-truncated topSearchedCodes list for every input, and on the
spec example of eleven search events with eleven distinct codes it is
10 while the true number of search events is 11. -/
theorem C2_totalSearches_is_truncated_sum :
    (∀ (getHours : String → Nat) (events : List AnalyticsEvent),
        (getAnalyticsStatsCompute getHours events).totalSearches =
          sumCounts ((getAnalyticsStatsCompute getHours events).topSearchedCodes))
    ∧ (getAnalyticsStatsCompute hrs0 elevenSearches).totalSearches = 10
    ∧ ((getAnalyticsStatsCompute hrs0 elevenSearches).topSearchedCodes).length = 10
    ∧ (elevenSearches.filter (fun e => e.event_type == "search")).length = 11 :=
  ⟨fun _ _ => rfl, by decide, by decide, by decide⟩

/-- C5: totalPageViews is the exact number of events of the input for
every input, counting events of every eventType; on an input of eleven
search events and no page-view event it is 11. -/
theorem C5_totalPageViews_counts_all_events :
    (∀ (getHours : String → Nat) (events : List AnalyticsEvent),
        (getAnalyticsStatsCompute getHours events).totalPageViews = events.length)
    ∧ (getAnalyticsStatsCompute hrs0 elevenSearches).totalPageViews = 11
    ∧ (elevenSearches.filter (fun e => e.event_type == "page_view")).length = 0 :=
  ⟨fun _ _ => rfl, by decide, by decide⟩

/-- C9: when the store fetch yields an error, the stats query returns
the well-formed zeroed AnalyticsStats of the catch branch, which is
exactly the aggregation of an empty collection; the embedding is a
total function, so no exception reaches the caller. -/
theorem C9_fetch_failure_degrades_to_empty :
    ∀ (getHours : String → Nat) (filters : StatsFilters) (err : String),
      getAnalyticsStats getHours filters (Except.error err) = emptyStats
      ∧ emptyStats = getAnalyticsStatsCompute getHours [] :=
  fun _ _ _ => ⟨rfl, rfl⟩

/-- C3: for every input, every activityByHour entry key is the local
hour of some event formatted with no zero padding as the hour digits
followed by a colon and two zeros, the list is sorted by the
lexicographic order of those formatted strings, and on the spec
example with local hours 9, 10 and 2 the output order is 10:00, 2:00,
9:00. -/
theorem C3_activityByHour_format_and_lexicographic_sort :
    (∀ (getHours : String → Nat) (events : List AnalyticsEvent),
        List.Pairwise hourLe ((getAnalyticsStatsCompute getHours events).activityByHour)
        ∧ ∀ p ∈ (getAnalyticsStatsCompute getHours events).activityByHour,
            ∃ e ∈ events, p.1 = Nat.repr (getHours e.timestamp) ++ ":00")
    ∧ (getAnalyticsStatsCompute hrs3 hourEvents).activityByHour =
        [("10:00", 1), ("2:00", 1), ("9:00", 1)] := by
  refine ⟨fun getHours events => ⟨List.sorted_insertionSort hourLe _, ?_⟩, by decide⟩
  intro p hp
  have h1 : p ∈ countList (hourKeys getHours events) :=
    (List.mem_insertionSort hourLe).mp hp
  have h2 : p.1 ∈ (countList (hourKeys getHours events)).map Prod.fst :=
    List.mem_map_of_mem Prod.fst h1
  have h3 : p.1 ∈ hourKeys getHours events := (countList_keys_mem _ _).mp h2
  rcases List.mem_map.mp h3 with ⟨e, he, hfmt⟩
  exact ⟨e, he, hfmt.symm⟩

/-- C6: for every input, the four top-10 lists have length at most 10,
errorCodeFrequency has length at most 15, and activityByHour is
uncapped: its length is exactly the number of distinct formatted
hours of the input. -/
theorem C6_list_length_caps :
    ∀ (getHours : String → Nat) (events : List AnalyticsEvent),
      (getAnalyticsStatsCompute getHours events).pageViews.length ≤ 10
      ∧ (getAnalyticsStatsCompute getHours events).topSearchedCodes.length ≤ 10
      ∧ (getAnalyticsStatsCompute getHours events).topBrands.length ≤ 10
      ∧ (getAnalyticsStatsCompute getHours events).topUsers.length ≤ 10
      ∧ (getAnalyticsStatsCompute getHours events).errorCodeFrequency.length ≤ 15
      ∧ (getAnalyticsStatsCompute getHours events).activityByHour.length =
          (hourKeys getHours events).toFinset.card := by
  intro getHours events
  refine ⟨List.length_take_le _ _, List.length_take_le _ _, List.length_take_le _ _,
    List.length_take_le _ _, List.length_take_le _ _, ?_⟩
  show (activityByHourOf getHours events).length = _
  calc (activityByHourOf getHours events).length
      = (countList (hourKeys getHours events)).length :=
        List.length_insertionSort hourLe _
    _ = (hourKeys getHours events).toFinset.card := countList_length _

/-- C8: events with a null userId contribute nothing to topUsers: for
every input, topUsers is unchanged when those events are removed, and
on the spec example of two users with five events each plus one
hundred anonymous events, topUsers has exactly the two user entries
and no null bucket. -/
theorem C8_null_userId_excluded_from_topUsers :
    (∀ (getHours : String → Nat) (events : List AnalyticsEvent),
        (getAnalyticsStatsCompute getHours events).topUsers =
          (getAnalyticsStatsCompute getHours
            (events.filter (fun e => strTruthy e.user_id))).topUsers)
    ∧ (getAnalyticsStatsCompute hrs0 nullUserEvents).topUsers = [("u1", 5), ("u2", 5)]
    ∧ ((getAnalyticsStatsCompute hrs0 nullUserEvents).topUsers).length = 2 := by
  refine ⟨fun getHours events => ?_, by decide, by decide⟩
  show topUsersOf events = topUsersOf (events.filter (fun e => strTruthy e.user_id))
  unfold topUsersOf topUsersFull
  rw [userKeys_filter]

/-- C4 counterexample: the claim extends the stable count-descending
tie-break to the grouping of activityByHour. On two events whose hour
buckets 9:00 and 10:00 are discovered in that order with equal counts,
the output lists 10:00 first: the first-discovered key of an
equal-count pair does not come first, because activityByHour is sorted
lexicographically by hour string, not stably by count. -/
theorem C4_counterexample_activityByHour_tiebreak :
    countList (hourKeys hrs3 hourPairEvents) = [("9:00", 1), ("10:00", 1)]
    ∧ (getAnalyticsStatsCompute hrs3 hourPairEvents).activityByHour =
        [("10:00", 1), ("9:00", 1)]
    ∧ ¬ [("9:00", 1), ("10:00", 1)].Sublist
        ((getAnalyticsStatsCompute hrs3 hourPairEvents).activityByHour) :=
  ⟨by decide, by decide, by decide⟩

/-- C4 amended: the five count-ranked lists (pageViews,
topSearchedCodes, topBrands, topUsers, errorCodeFrequency) apply the
stable count-descending tie-break: a pair of keys with equal counts
keeps its first-discovery order through the sort, both in the full
sorted list and in the truncated output whenever the later key
survives the truncation. activityByHour does not use this tie-break:
it is sorted lexicographically by the formatted hour string. -/
theorem C4_amended_stable_tiebreak_ranked_lists :
    ∀ events : List AnalyticsEvent,
      (∀ (k1 k2 : String) (c : Nat),
          [(k1, c), (k2, c)].Sublist (countList (pageViewKeys events)) →
            [(k1, c), (k2, c)].Sublist (pageViewsFull events)
            ∧ ((k2, c) ∈ pageViewsOf events →
                [(k1, c), (k2, c)].Sublist (pageViewsOf events)))
      ∧ (∀ (k1 k2 : JSValue) (c : Nat),
          [(k1, c), (k2, c)].Sublist (countList (searchKeys events)) →
            [(k1, c), (k2, c)].Sublist (topSearchedCodesFull events)
            ∧ ((k2, c) ∈ topSearchedCodesOf events →
                [(k1, c), (k2, c)].Sublist (topSearchedCodesOf events)))
      ∧ (∀ (k1 k2 : JSValue) (c : Nat),
          [(k1, c), (k2, c)].Sublist (countList (brandKeys events)) →
            [(k1, c), (k2, c)].Sublist (topBrandsFull events)
            ∧ ((k2, c) ∈ topBrandsOf events →
                [(k1, c), (k2, c)].Sublist (topBrandsOf events)))
      ∧ (∀ (k1 k2 : String) (c : Nat),
          [(k1, c), (k2, c)].Sublist (countList (userKeys events)) →
            [(k1, c), (k2, c)].Sublist (topUsersFull events)
            ∧ ((k2, c) ∈ topUsersOf events →
                [(k1, c), (k2, c)].Sublist (topUsersOf events)))
      ∧ (∀ (k1 k2 : JSValue) (c : Nat),
          [(k1, c), (k2, c)].Sublist (countList (errorKeys events)) →
            [(k1, c), (k2, c)].Sublist (errorCodeFrequencyFull events)
            ∧ ((k2, c) ∈ errorCodeFrequencyOf events →
                [(k1, c), (k2, c)].Sublist (errorCodeFrequencyOf events))) := by
  intro events
  refine ⟨?_, ?_, ?_, ?_, ?_⟩ <;>
    · intro k1 k2 c h
      have hfull := countGe_pair_sublist h
      exact ⟨hfull, fun hmem =>
        pair_sublist_take (sortByCountDesc_nodup _ (countList_entries_nodup _))
          hfull hmem⟩

/-- C4 witness: on two page views over distinct paths, an equal-count
pair in discovery order, the amended theorem applies: the pair stays
in that order in the full sorted list and in the truncated output. -/
theorem C4_amended_stable_tiebreak_ranked_lists_witness :
    [("/a", 1), ("/b", 1)].Sublist (countList (pageViewKeys tieEvents))
    ∧ [("/a", 1), ("/b", 1)].Sublist (pageViewsFull tieEvents)
    ∧ [("/a", 1), ("/b", 1)].Sublist (pageViewsOf tieEvents) :=
  ⟨by decide,
    ((C4_amended_stable_tiebreak_ranked_lists tieEvents).1 "/a" "/b" 1 (by decide)).1,
    ((C4_amended_stable_tiebreak_ranked_lists tieEvents).1 "/a" "/b" 1 (by decide)).2
      (by decide)⟩

/-- C7 counterexample: the claim requires non-increasing counts in
every output list, activityByHour included. On three events with local
hours 2, 2 and 10 the hour list is 10:00 with count 1 followed by 2:00
with count 2: the counts increase, because activityByHour is ordered
by hour string, not by count. -/
theorem C7_counterexample_activityByHour_counts_increase :
    (getAnalyticsStatsCompute hrs2 hourEventsC7).activityByHour =
      [("10:00", 1), ("2:00", 2)]
    ∧ ¬ List.Pairwise countGe
        ((getAnalyticsStatsCompute hrs2 hourEventsC7).activityByHour) :=
  ⟨by decide, by decide⟩

/-- C7 amended: for every input, every count in every output list is
strictly positive, and the counts are non-increasing in the five
count-ranked lists; activityByHour keeps positive counts but is
ordered by hour string, so its counts need not be non-increasing. -/
theorem C7_amended_counts_positive_ranked_nonincreasing :
    ∀ (getHours : String → Nat) (events : List AnalyticsEvent),
      (∀ p ∈ (getAnalyticsStatsCompute getHours events).pageViews, 0 < p.2)
      ∧ (∀ p ∈ (getAnalyticsStatsCompute getHours events).topSearchedCodes, 0 < p.2)
      ∧ (∀ p ∈ (getAnalyticsStatsCompute getHours events).topBrands, 0 < p.2)
      ∧ (∀ p ∈ (getAnalyticsStatsCompute getHours events).topUsers, 0 < p.2)
      ∧ (∀ p ∈ (getAnalyticsStatsCompute getHours events).errorCodeFrequency, 0 < p.2)
      ∧ (∀ p ∈ (getAnalyticsStatsCompute getHours events).activityByHour, 0 < p.2)
      ∧ List.Pairwise countGe ((getAnalyticsStatsCompute getHours events).pageViews)
      ∧ List.Pairwise countGe ((getAnalyticsStatsCompute getHours events).topSearchedCodes)
      ∧ List.Pairwise countGe ((getAnalyticsStatsCompute getHours events).topBrands)
      ∧ List.Pairwise countGe ((getAnalyticsStatsCompute getHours events).topUsers)
      ∧ List.Pairwise countGe ((getAnalyticsStatsCompute getHours events).errorCodeFrequency) := by
  intro getHours events
  exact ⟨take_sortByCountDesc_pos _ _, take_sortByCountDesc_pos _ _,
    take_sortByCountDesc_pos _ _, take_sortByCountDesc_pos _ _,
    take_sortByCountDesc_pos _ _, activityByHour_pos _ _,
    take_sortByCountDesc_sorted _ _, take_sortByCountDesc_sorted _ _,
    take_sortByCountDesc_sorted _ _, take_sortByCountDesc_sorted _ _,
    take_sortByCountDesc_sorted _ _⟩

/-- C10: the aggregation tests each selecting field for JavaScript
truthiness, not mere presence: for every input, each of the five
key-selected lists is unchanged when the events failing its truthiness
guard are removed; concretely, an event with empty-string path is
excluded from pageViews, one with empty-string userId is excluded from
topUsers, and an event whose meta code, brand or errorCode is present
but falsy (empty string, zero, or false) produces exactly the stats of
the same event with that key absent. -/
theorem C10_truthiness_not_presence :
    (∀ (getHours : String → Nat) (events : List AnalyticsEvent),
        (getAnalyticsStatsCompute getHours events).pageViews =
          (getAnalyticsStatsCompute getHours
            (events.filter (fun e => strTruthy e.path))).pageViews
        ∧ (getAnalyticsStatsCompute getHours events).topSearchedCodes =
            (getAnalyticsStatsCompute getHours
              (events.filter (fun e =>
                e.event_type == "search" && optTruthy (metaGet e.meta "code")))).topSearchedCodes
        ∧ (getAnalyticsStatsCompute getHours events).topBrands =
            (getAnalyticsStatsCompute getHours
              (events.filter (fun e => optTruthy (metaGet e.meta "brand")))).topBrands
        ∧ (getAnalyticsStatsCompute getHours events).topUsers =
            (getAnalyticsStatsCompute getHours
              (events.filter (fun e => strTruthy e.user_id))).topUsers
        ∧ (getAnalyticsStatsCompute getHours events).errorCodeFrequency =
            (getAnalyticsStatsCompute getHours
              (events.filter (fun e => optTruthy (metaGet e.meta "errorCode")))).errorCodeFrequency)
    ∧ (getAnalyticsStatsCompute hrs0 [{ baseEvent with path := some "" }]).pageViews = []
    ∧ (getAnalyticsStatsCompute hrs0 [{ baseEvent with user_id := some "" }]).topUsers = []
    ∧ getAnalyticsStatsCompute hrs0
        [{ baseEvent with
            event_type := "search"
            meta := some [("code", JSValue.str "")] }] =
      getAnalyticsStatsCompute hrs0
        [{ baseEvent with event_type := "search", meta := some [] }]
    ∧ getAnalyticsStatsCompute hrs0
        [{ baseEvent with
            event_type := "search"
            meta := some [("code", JSValue.num 0)] }] =
      getAnalyticsStatsCompute hrs0
        [{ baseEvent with event_type := "search", meta := some [] }]
    ∧ getAnalyticsStatsCompute hrs0
        [{ baseEvent with
            event_type := "search"
            meta := some [("code", JSValue.bool false)] }] =
      getAnalyticsStatsCompute hrs0
        [{ baseEvent with event_type := "search", meta := some [] }]
    ∧ getAnalyticsStatsCompute hrs0 [{ baseEvent with meta := some [("brand", JSValue.str "")] }] =
      getAnalyticsStatsCompute hrs0 [{ baseEvent with meta := some [] }]
    ∧ getAnalyticsStatsCompute hrs0 [{ baseEvent with meta := some [("errorCode", JSValue.num 0)] }] =
      getAnalyticsStatsCompute hrs0 [{ baseEvent with meta := some [] }] := by
  refine ⟨fun getHours events => ⟨?_, ?_, ?_, ?_, ?_⟩,
    by decide, by decide, by decide, by decide, by decide, by decide, by decide⟩
  · show pageViewsOf events = pageViewsOf (events.filter (fun e => strTruthy e.path))
    unfold pageViewsOf pageViewsFull
    rw [pageViewKeys_filter]
  · show topSearchedCodesOf events = topSearchedCodesOf (events.filter _)
    unfold topSearchedCodesOf topSearchedCodesFull
    rw [searchKeys_filter]
  · show topBrandsOf events = topBrandsOf (events.filter _)
    unfold topBrandsOf topBrandsFull
    rw [brandKeys_filter]
  · show topUsersOf events = topUsersOf (events.filter _)
    unfold topUsersOf topUsersFull
    rw [userKeys_filter]
  · show errorCodeFrequencyOf events = errorCodeFrequencyOf (events.filter _)
    unfold errorCodeFrequencyOf errorCodeFrequencyFull
    rw [errorKeys_filter]

/-- C3 witness: on the spec example, the entry for 10:00 is in the
hour list and its key is the formatted local hour of an event. -/
theorem C3_activityByHour_format_and_lexicographic_sort_witness :
    ("10:00", 1) ∈ (getAnalyticsStatsCompute hrs3 hourEvents).activityByHour
    ∧ ∃ e ∈ hourEvents,
        (("10:00", 1) : String × Nat).1 = Nat.repr (hrs3 e.timestamp) ++ ":00" :=
  ⟨by decide,
    (C3_activityByHour_format_and_lexicographic_sort.1 hrs3 hourEvents).2
      ("10:00", 1) (by decide)⟩

/-- C7 witness: on the spec example, the entry for 10:00 is in the
hour list and the amended theorem yields its positive count. -/
theorem C7_amended_counts_positive_ranked_nonincreasing_witness :
    ("10:00", 1) ∈ (getAnalyticsStatsCompute hrs3 hourEvents).activityByHour
    ∧ 0 < (("10:00", 1) : String × Nat).2 :=
  ⟨by decide,
    (C7_amended_counts_positive_ranked_nonincreasing hrs3 hourEvents).2.2.2.2.2.1
      ("10:00", 1) (by decide)⟩
